import Mathlib

/-!
Verification of the transcribeweb media pipeline
(`src/web/transcription_service.py`), shallowly embedded in Lean 4.

Numeric seconds values (Python floats) are modelled as exact rationals `ℚ`.
External effects (subprocess outcomes, the transcription API, the
filesystem) are modelled as explicit parameters and explicit state: the
filesystem of temp chunk files is a `List Nat` of fresh file names, and
per-chunk subprocess/API outcomes are drawn from an environment
`Nat → ChunkEnv` indexed by chunk number.
-/

/-! ## Chunk planner (`get_audio_chunks`, lines 262-287)

The source computes the duration itself via `get_audio_duration`; the
planner logic is a pure function of that duration, modelled here directly
on the duration.  The Python `while start < duration` loop strides by
`max_duration - overlap`; it is embedded with an explicit fuel argument.
The fuel chosen in `get_audio_chunks` (`⌈duration⌉.toNat + 2`) is large
enough whenever the stride is at least 1, which covers the default
parameters `max_duration = 600`, `overlap = 10` used by every caller in
the source.  `min max_duration remaining` is written as an `if` so the
definition stays free of classical choice. -/

def chunkLoop (duration max_duration overlap : ℚ) : Nat → ℚ → List (ℚ × ℚ)
  | 0, _ => []
  | Nat.succ fuel, start =>
    if start < duration then
      let remaining := duration - start
      let chunk_duration :=
        if remaining ≤ max_duration + overlap then remaining + 1/2
        else if max_duration ≤ remaining then max_duration else remaining
      if duration ≤ start + chunk_duration then [(start, chunk_duration)]
      else (start, chunk_duration) :: chunkLoop duration max_duration overlap fuel (start + (max_duration - overlap))
    else []

def get_audio_chunks (duration max_duration : ℚ) : List (ℚ × ℚ) :=
  if duration ≤ 600 then [(0, duration + 1/2)]
  else chunkLoop duration max_duration 10 (⌈duration⌉.toNat + 2) 0

/-- End time (`start + length`) of the last window of a plan, 0 for an
empty plan. -/
def lastEnd (l : List (ℚ × ℚ)) : ℚ :=
  match l.getLast? with
  | some w => w.1 + w.2
  | none => 0

lemma lastEnd_singleton (a : ℚ × ℚ) : lastEnd [a] = a.1 + a.2 := by
  simp [lastEnd]

lemma lastEnd_cons_cons (a b : ℚ × ℚ) (t : List (ℚ × ℚ)) :
    lastEnd (a :: b :: t) = lastEnd (b :: t) := by
  unfold lastEnd
  rw [List.getLast?_cons_cons]

/-- Unfolding step of the loop when the tail-fold test fires: the window
gets the remaining duration plus the 0.5 pad and the loop breaks. -/
lemma chunkLoop_last (d m o : ℚ) (fuel : Nat) (start : ℚ)
    (h1 : start < d) (h2 : d - start ≤ m + o) (h3 : d ≤ start + (d - start + 1/2)) :
    chunkLoop d m o (fuel + 1) start = [(start, d - start + 1/2)] := by
  simp only [chunkLoop, if_pos h1, if_pos h2, if_pos h3]

/-- Unfolding step of the loop in the middle of the file: the window has
the full `max_duration` length and the loop strides on. -/
lemma chunkLoop_cons (d m o : ℚ) (fuel : Nat) (start : ℚ)
    (h1 : start < d) (h2 : ¬ (d - start ≤ m + o)) (h3 : m ≤ d - start) (h4 : ¬ d ≤ start + m) :
    chunkLoop d m o (fuel + 1) start = (start, m) :: chunkLoop d m o fuel (start + (m - o)) := by
  simp only [chunkLoop, if_neg h2, if_pos h1, if_pos h3, if_neg h4]

/-- Core loop invariant for the default planner parameters: with enough
fuel, the windows produced from `start` begin at `start`, adjacent
windows are chained (contiguous and non-decreasing), and the last window
reaches `duration`. -/
lemma chunkLoop_covering (d : ℚ) :
    ∀ (fuel : Nat) (start : ℚ), start < d → d < start + fuel →
    ∃ c rest, chunkLoop d 600 10 fuel start = (start, c) :: rest ∧
      List.Chain' (fun a b : ℚ × ℚ => b.1 ≤ a.1 + a.2 ∧ a.1 ≤ b.1) ((start, c) :: rest) ∧
      d ≤ lastEnd ((start, c) :: rest) := by
  intro fuel
  induction fuel with
  | zero =>
    intro start h1 h2
    push_cast at h2
    linarith
  | succ n ih =>
    intro start h1 h2
    by_cases hrem : d - start ≤ 600 + 10
    · have hbreak : d ≤ start + (d - start + 1/2) := by linarith
      refine ⟨d - start + 1/2, [], ?_, ?_, ?_⟩
      · exact chunkLoop_last d 600 10 n start h1 hrem hbreak
      · simp
      · rw [lastEnd_singleton]
        show d ≤ start + (d - start + 1/2)
        linarith
    · have hrem' : 600 + 10 < d - start := lt_of_not_le hrem
      have h3 : (600 : ℚ) ≤ d - start := by linarith
      have h4 : ¬ d ≤ start + 600 := by
        push_neg
        linarith
      have h1' : start + (600 - 10 : ℚ) < d := by linarith
      have h2' : d < (start + (600 - 10 : ℚ)) + n := by
        push_cast at h2 ⊢
        linarith
      obtain ⟨c, rest, heq, hchain, hlast⟩ := ih (start + (600 - 10 : ℚ)) h1' h2'
      refine ⟨600, (start + (600 - 10 : ℚ), c) :: rest, ?_, ?_, ?_⟩
      · rw [chunkLoop_cons d 600 10 n start h1 hrem h3 h4, heq]
      · refine List.chain'_cons.mpr ⟨⟨?_, ?_⟩, hchain⟩
        · show start + (600 - 10 : ℚ) ≤ start + 600
          linarith
        · show start ≤ start + (600 - 10 : ℚ)
          linarith
      · rw [lastEnd_cons_cons]
        exact hlast

/-- Concrete evaluation of the planner at duration 1205 with the default
parameters: three windows, with the tail folded only at start 1180. -/
lemma get_audio_chunks_1205 :
    get_audio_chunks 1205 600 = [(0, 600), (590, 600), (1180, 51/2)] := by
  have hfuel : (⌈(1205 : ℚ)⌉.toNat + 2) = 1207 := by norm_num; rfl
  rw [get_audio_chunks, if_neg (by norm_num), hfuel]
  rw [show (1207 : ℕ) = 1206 + 1 from rfl,
    chunkLoop_cons 1205 600 10 1206 0 (by norm_num) (by norm_num) (by norm_num) (by norm_num)]
  norm_num
  rw [show (1206 : ℕ) = 1205 + 1 from rfl,
    chunkLoop_cons 1205 600 10 1205 590 (by norm_num) (by norm_num) (by norm_num) (by norm_num)]
  norm_num
  rw [show (1205 : ℕ) = 1204 + 1 from rfl,
    chunkLoop_last 1205 600 10 1204 1180 (by norm_num) (by norm_num) (by norm_num)]
  norm_num

/-- Claim C5: for every duration with `0 < duration ≤ 600` and the default
`max_duration = 600`, the planner returns the single window
`(0, duration + 0.5)`. -/
theorem get_audio_chunks_single_window (d : ℚ) (h0 : 0 < d) (h : d ≤ 600) :
    get_audio_chunks d 600 = [(0, d + 1/2)] := by
  unfold get_audio_chunks
  rw [if_pos h]

/-- Witness for C5 at duration 300. -/
theorem get_audio_chunks_single_window_witness :
    (0 : ℚ) < 300 ∧ (300 : ℚ) ≤ 600 ∧ get_audio_chunks 300 600 = [(0, 300 + 1/2)] :=
  ⟨by norm_num, by norm_num, get_audio_chunks_single_window 300 (by norm_num) (by norm_num)⟩

/-- Claim C10: the single-window test compares the duration against the
literal constant 600, not against the `max_duration` parameter, so any
duration at most 600 yields `(0, duration + 0.5)` even when
`max_duration` is smaller than the duration. -/
theorem get_audio_chunks_ignores_max_duration (d max_duration : ℚ) (h : d ≤ 600) :
    get_audio_chunks d max_duration = [(0, d + 1/2)] := by
  unfold get_audio_chunks
  rw [if_pos h]

/-- Witness for C10 at duration 500 with `max_duration = 100`. -/
theorem get_audio_chunks_ignores_max_duration_witness :
    (500 : ℚ) ≤ 600 ∧ get_audio_chunks 500 100 = [(0, 500 + 1/2)] :=
  ⟨by norm_num, get_audio_chunks_ignores_max_duration 500 100 (by norm_num)⟩

/-- Claim C2 counterexample: `plan(1205)` does not return the two windows
`[(0, 600), (590, 625.5)]` stated by the spec; at start 590 the
remaining duration is 615 > 610, so the tail is not folded there. -/
theorem get_audio_chunks_1205_ne_spec :
    get_audio_chunks 1205 600 ≠ [(0, 600), (590, 1251/2)] := by
  rw [get_audio_chunks_1205]
  simp

/-- Claim C2 (amended): `plan(1205)` returns the three windows
`[(0, 600), (590, 600), (1180, 25.5)]`; the fold happens at start 1180
where the remaining 25 seconds get the 0.5 pad. -/
theorem get_audio_chunks_1205_eq :
    get_audio_chunks 1205 600 = [(0, 600), (590, 600), (1180, 51/2)] :=
  get_audio_chunks_1205

/-- Claim C3: for every duration > 600 (default parameters), the plan is
nonempty, adjacent windows satisfy
`window[i].start + window[i].length ≥ window[i+1].start` and
`window[i].start ≤ window[i+1].start`, and the last window's end reaches
the duration. -/
theorem get_audio_chunks_covering (d : ℚ) (h : 600 < d) :
    get_audio_chunks d 600 ≠ [] ∧
    List.Chain' (fun a b : ℚ × ℚ => b.1 ≤ a.1 + a.2 ∧ a.1 ≤ b.1) (get_audio_chunks d 600) ∧
    d ≤ lastEnd (get_audio_chunks d 600) := by
  have h0 : (0 : ℚ) < d := by linarith
  have hceil : d ≤ ((⌈d⌉.toNat : ℕ) : ℚ) := by
    have ha : d ≤ (⌈d⌉ : ℚ) := Int.le_ceil d
    have hb : (0 : ℤ) ≤ ⌈d⌉ := Int.ceil_nonneg h0.le
    have hc : ((⌈d⌉.toNat : ℕ) : ℤ) = ⌈d⌉ := Int.toNat_of_nonneg hb
    calc d ≤ (⌈d⌉ : ℚ) := ha
      _ = ((⌈d⌉.toNat : ℕ) : ℚ) := by exact_mod_cast hc.symm
  have hfuel : d < (0 : ℚ) + ((⌈d⌉.toNat + 2 : ℕ) : ℚ) := by
    push_cast
    push_cast at hceil
    linarith
  obtain ⟨c, rest, heq, hchain, hlast⟩ := chunkLoop_covering d (⌈d⌉.toNat + 2) 0 h0 hfuel
  have hgd : get_audio_chunks d 600 = (0, c) :: rest := by
    unfold get_audio_chunks
    rw [if_neg (not_le.mpr h)]
    exact heq
  refine ⟨?_, ?_, ?_⟩
  · rw [hgd]; simp
  · rw [hgd]; exact hchain
  · rw [hgd]; exact hlast

/-- Witness for C3 at duration 1205. -/
theorem get_audio_chunks_covering_witness :
    (600 : ℚ) < 1205 ∧
    (get_audio_chunks 1205 600 ≠ [] ∧
      List.Chain' (fun a b : ℚ × ℚ => b.1 ≤ a.1 + a.2 ∧ a.1 ≤ b.1) (get_audio_chunks 1205 600) ∧
      (1205 : ℚ) ≤ lastEnd (get_audio_chunks 1205 600)) :=
  ⟨by norm_num, get_audio_chunks_covering 1205 (by norm_num)⟩

/-! ## Media prober (`get_audio_duration`, lines 192-200)

The ffprobe invocation is modelled by its observable outcome: either the
process succeeded with some stdout text, exited non-zero
(`CalledProcessError`, since the source passes `check=True`), or hit the
30s timeout (`TimeoutExpired`).  The source then runs
`float(result.stdout.strip())` and turns `CalledProcessError`,
`ValueError` and `TimeoutExpired` into a `RuntimeError`.  Python's
`str.strip` is modelled by `pyStrip`, and `float(...)` on the decimal
strings ffprobe can print (optional sign, digits, optional fractional
part) by `parsePyFloat`; exponent and inf/nan forms are outside the
modelled subset. -/

def natOfDigits (l : List Char) : Nat :=
  l.foldl (fun n c => 10 * n + (c.toNat - 48)) 0

def pyStrip (s : String) : String :=
  String.mk (((s.data.dropWhile Char.isWhitespace).reverse.dropWhile Char.isWhitespace).reverse)

def parseUnsignedFloat (l : List Char) : Option ℚ :=
  if l.all Char.isDigit && !l.isEmpty then
    some ((natOfDigits l : ℚ))
  else
    let intPart := l.takeWhile (fun c => c != '.')
    match l.dropWhile (fun c => c != '.') with
    | [] => none
    | _ :: fracPart =>
      if intPart.all Char.isDigit && fracPart.all Char.isDigit &&
          (!intPart.isEmpty || !fracPart.isEmpty) then
        some ((natOfDigits intPart : ℚ) + (natOfDigits fracPart : ℚ) / (10 : ℚ) ^ fracPart.length)
      else none

def parsePyFloat (s : String) : Option ℚ :=
  match s.data with
  | '-' :: rest => (parseUnsignedFloat rest).map (fun q => -q)
  | '+' :: rest => parseUnsignedFloat rest
  | l => parseUnsignedFloat l

inductive ProcResult where
  | ok (stdout : String)
  | nonzeroExit
  | timedOut
deriving DecidableEq

def get_audio_duration (r : ProcResult) : Except String ℚ :=
  match r with
  | ProcResult.nonzeroExit => Except.error "Could not determine audio duration: CalledProcessError"
  | ProcResult.timedOut => Except.error "Could not determine audio duration: TimeoutExpired"
  | ProcResult.ok out =>
    match parsePyFloat (pyStrip out) with
    | some q => Except.ok q
    | none => Except.error "Could not determine audio duration: ValueError"

/-- Claim C4 counterexample: a probe that prints `0` (or a negative
number) is not rejected: the parsed value is returned to the caller, so
a zero duration reaches the chunk planner instead of raising. -/
theorem get_audio_duration_zero_accepted :
    get_audio_duration (ProcResult.ok "0") = Except.ok 0 ∧
    get_audio_duration (ProcResult.ok "-3") = Except.ok (-3) := by
  constructor
  · have e1 : get_audio_duration (ProcResult.ok "0") = Except.ok ((natOfDigits ['0'] : ℚ)) := rfl
    rw [e1, show natOfDigits ['0'] = 0 from by decide]
    norm_num
  · have e2 : get_audio_duration (ProcResult.ok "-3") = Except.ok (-((natOfDigits ['3'] : ℕ) : ℚ)) := rfl
    rw [e2, show natOfDigits ['3'] = 3 from by decide]
    norm_num

/-- Claim C4 (amended): the prober errors exactly when the process exits
non-zero, times out, or its stripped output is not parseable as a
(possibly signed) decimal number; any parseable value, including 0 and
negative values, is returned as-is. -/
theorem get_audio_duration_error_iff (r : ProcResult) :
    (∃ e, get_audio_duration r = Except.error e) ↔
      (r = ProcResult.nonzeroExit ∨ r = ProcResult.timedOut ∨
        ∃ s, r = ProcResult.ok s ∧ parsePyFloat (pyStrip s) = none) := by
  cases r with
  | nonzeroExit => simp [get_audio_duration]
  | timedOut => simp [get_audio_duration]
  | ok s =>
    cases h : parsePyFloat (pyStrip s) with
    | none => simp [get_audio_duration, h]
    | some q => simp [get_audio_duration, h]

/-- Witness for C4's amended characterization at a timed-out probe. -/
theorem get_audio_duration_error_iff_witness :
    ∃ e, get_audio_duration ProcResult.timedOut = Except.error e :=
  (get_audio_duration_error_iff ProcResult.timedOut).mpr (Or.inr (Or.inl rfl))

/-! ## Chunk extractor and transcription driver
(`extract_audio_chunk`, lines 229-260; `transcribe_audio`, lines 333-401)

The filesystem of temp chunk files is a `List Nat` of file names;
`mkstemp` for chunk `i` allocates the fresh name `i`.  The ffmpeg
invocation for one chunk is modelled by its outcome: it wrote an output
file of a given size (`wrote size`, with `size = 0` for the
missing-or-empty check of line 249), exited non-zero (`procErr`), or
timed out (`timedOut`).  The Whisper upload for one chunk either returns
a transcript text or throws.  `extract_audio_chunk` mirrors lines
229-260: the `except` handlers for `TimeoutExpired` and
`CalledProcessError` remove the temp file, while the `RuntimeError`
raised for an empty output file is not one of the caught types, so on
that path the temp file stays on disk.  `runChunks` mirrors the `for`
loop of lines 362-394 (including the per-iteration `os.remove` of line
393-394) and `transcribe_audio` adds the `finally` sweep of lines
398-401 over every path recorded in `temp_paths`.  The pre-loop steps
(path check, connectivity probe, planner call) are taken as given: the
windows list is a parameter, and only its length is observable to the
loop. -/

inductive FfmpegOutcome where
  | wrote (size : Nat)
  | procErr
  | timedOut
deriving DecidableEq

inductive UploadOutcome where
  | ok (text : String)
  | err (msg : String)
deriving DecidableEq

structure ChunkEnv where
  ffmpeg : FfmpegOutcome
  upload : UploadOutcome
deriving DecidableEq

def extract_audio_chunk (fs : List Nat) (name : Nat) (o : FfmpegOutcome) :
    List Nat × Except String Nat :=
  let fs1 := name :: fs
  match o with
  | FfmpegOutcome.timedOut =>
    (fs1.erase name, Except.error "ffmpeg timed out while extracting audio chunk")
  | FfmpegOutcome.procErr =>
    (fs1.erase name, Except.error "ffmpeg audio extraction failed")
  | FfmpegOutcome.wrote size =>
    if size = 0 then (fs1, Except.error "Audio extraction produced empty file")
    else (fs1, Except.ok name)

def chunkErrMsg (k total : Nat) (msg : String) : String :=
  "Failed to process audio chunk " ++ toString k ++ "/" ++ toString total ++ ": " ++ msg

def extractOk : FfmpegOutcome → Bool
  | FfmpegOutcome.wrote (Nat.succ _) => true
  | _ => false

def uploadOk : UploadOutcome → Bool
  | UploadOutcome.ok _ => true
  | _ => false

def uploadText : UploadOutcome → String
  | UploadOutcome.ok t => t
  | UploadOutcome.err _ => ""

def chunkOk (c : ChunkEnv) : Bool := extractOk c.ffmpeg && uploadOk c.upload

def runChunks (env : Nat → ChunkEnv) (total : Nat) :
    Nat → List (ℚ × ℚ) → List Nat → List Nat → List String →
    List Nat × List Nat × Except String String
  | _, [], fs, temps, parts => (fs, temps, Except.ok (String.intercalate "\n\n" parts))
  | i, _ :: rest, fs, temps, parts =>
    match extract_audio_chunk fs i (env i).ffmpeg with
    | (fs1, Except.error msg) => (fs1, temps, Except.error (chunkErrMsg (i + 1) total msg))
    | (fs1, Except.ok name) =>
      match (env i).upload with
      | UploadOutcome.err msg =>
        (fs1, temps ++ [name], Except.error (chunkErrMsg (i + 1) total msg))
      | UploadOutcome.ok text =>
        runChunks env total (i + 1) rest (fs1.erase name) (temps ++ [name]) (parts ++ [text])

def transcribe_audio (env : Nat → ChunkEnv) (chunks : List (ℚ × ℚ)) (fs0 : List Nat) :
    List Nat × Except String String :=
  let r := runChunks env chunks.length 0 chunks fs0 [] []
  (r.2.1.foldl (fun f p => f.erase p) r.1, r.2.2)

/-- One successful iteration of the driver loop: the temp file is created,
uploaded, recorded in `temp_paths`, and removed again, leaving the
filesystem unchanged for the next iteration. -/
lemma runChunks_step (env : Nat → ChunkEnv) (total i : Nat) (w : ℚ × ℚ)
    (ws : List (ℚ × ℚ)) (fs temps : List Nat) (parts : List String)
    (h : chunkOk (env i) = true) :
    runChunks env total i (w :: ws) fs temps parts =
      runChunks env total (i + 1) ws fs (temps ++ [i]) (parts ++ [uploadText (env i).upload]) := by
  simp only [chunkOk, Bool.and_eq_true] at h
  obtain ⟨h1, h2⟩ := h
  cases hf : (env i).ffmpeg with
  | wrote size =>
    cases size with
    | zero => rw [hf] at h1; simp [extractOk] at h1
    | succ n =>
      cases hu : (env i).upload with
      | ok t =>
        simp [runChunks, extract_audio_chunk, hf, hu, uploadText, List.erase_cons_head]
      | err m => rw [hu] at h2; simp [uploadOk] at h2
  | procErr => rw [hf] at h1; simp [extractOk] at h1
  | timedOut => rw [hf] at h1; simp [extractOk] at h1

deriving instance DecidableEq for Except

/-- If every chunk the loop still has to process succeeds, the loop
returns the parts accumulated so far followed by the per-chunk upload
texts, joined in window order, and leaves the filesystem unchanged. -/
lemma runChunks_all_ok (env : Nat → ChunkEnv) (total : Nat) :
    ∀ (ws : List (ℚ × ℚ)) (i : Nat) (fs temps : List Nat) (parts : List String),
    (∀ j ∈ List.range' i ws.length, chunkOk (env j) = true) →
    (runChunks env total i ws fs temps parts).2.2 =
      Except.ok (String.intercalate "\n\n"
        (parts ++ (List.range' i ws.length).map (fun j => uploadText (env j).upload))) := by
  intro ws
  induction ws with
  | nil =>
    intro i fs temps parts _
    simp [runChunks]
  | cons w rest ih =>
    intro i fs temps parts h
    have h0 : chunkOk (env i) = true := by
      refine h i ?_
      rw [List.length_cons, List.range'_succ]
      exact List.mem_cons_self i _
    rw [runChunks_step env total i w rest fs temps parts h0]
    have hrest : ∀ j ∈ List.range' (i + 1) rest.length, chunkOk (env j) = true := by
      intro j hj
      refine h j ?_
      rw [List.length_cons, List.range'_succ]
      exact List.mem_cons_of_mem i hj
    rw [ih (i + 1) fs (temps ++ [i]) (parts ++ [uploadText (env i).upload]) hrest]
    rw [List.length_cons, List.range'_succ]
    simp

/-- If the first `k` chunks still to process succeed and chunk `i + k`
fails (in extraction or upload), the loop returns an error wrapping the
underlying message and naming chunk `i + k + 1` of `total`. -/
lemma runChunks_err (env : Nat → ChunkEnv) (total : Nat) :
    ∀ (k : Nat) (ws : List (ℚ × ℚ)) (i : Nat) (fs temps : List Nat) (parts : List String),
    k < ws.length →
    (∀ j, i ≤ j → j < i + k → chunkOk (env j) = true) →
    chunkOk (env (i + k)) = false →
    ∃ u fs2 temps2, runChunks env total i ws fs temps parts =
      (fs2, temps2, Except.error (chunkErrMsg (i + k + 1) total u)) := by
  intro k
  induction k with
  | zero =>
    intro ws i fs temps parts hk hpre hfail
    cases ws with
    | nil => simp at hk
    | cons w rest =>
      rw [Nat.add_zero] at hfail
      cases hf : (env i).ffmpeg with
      | timedOut =>
        refine ⟨"ffmpeg timed out while extracting audio chunk", fs, temps, ?_⟩
        simp [runChunks, extract_audio_chunk, hf]
      | procErr =>
        refine ⟨"ffmpeg audio extraction failed", fs, temps, ?_⟩
        simp [runChunks, extract_audio_chunk, hf]
      | wrote size =>
        cases size with
        | zero =>
          refine ⟨"Audio extraction produced empty file", i :: fs, temps, ?_⟩
          simp [runChunks, extract_audio_chunk, hf]
        | succ n =>
          cases hu : (env i).upload with
          | ok t =>
            exfalso
            rw [chunkOk, hf, hu] at hfail
            simp [extractOk, uploadOk] at hfail
          | err m =>
            refine ⟨m, i :: fs, temps ++ [i], ?_⟩
            simp [runChunks, extract_audio_chunk, hf, hu]
  | succ k ih =>
    intro ws i fs temps parts hk hpre hfail
    cases ws with
    | nil => simp at hk
    | cons w rest =>
      have h0 : chunkOk (env i) = true := hpre i (le_refl i) (by omega)
      rw [runChunks_step env total i w rest fs temps parts h0]
      have hk' : k < rest.length := by
        rw [List.length_cons] at hk
        omega
      have hpre' : ∀ j, i + 1 ≤ j → j < (i + 1) + k → chunkOk (env j) = true :=
        fun j hj1 hj2 => hpre j (by omega) (by omega)
      have hfail' : chunkOk (env ((i + 1) + k)) = false := by
        have harith : (i + 1) + k = i + (k + 1) := by omega
        rw [harith]
        exact hfail
      obtain ⟨u, fs2, temps2, heq⟩ :=
        ih rest (i + 1) fs (temps ++ [i]) (parts ++ [uploadText (env i).upload]) hk' hpre' hfail'
      have harith2 : (i + 1) + k + 1 = i + (k + 1) + 1 := by omega
      rw [harith2] at heq
      exact ⟨u, fs2, temps2, heq⟩

/-- Claim C9: when every chunk succeeds, the returned transcript is the
per-chunk texts joined in window order with a blank-line separator. -/
theorem transcribe_audio_joins_parts (env : Nat → ChunkEnv) (chunks : List (ℚ × ℚ))
    (h : ∀ j < chunks.length, chunkOk (env j) = true) :
    (transcribe_audio env chunks []).2 =
      Except.ok (String.intercalate "\n\n"
        ((List.range chunks.length).map (fun j => uploadText (env j).upload))) := by
  have hall : ∀ j ∈ List.range' 0 chunks.length, chunkOk (env j) = true := by
    intro j hj
    have hj2 := (List.mem_range'_1.mp hj).2
    exact h j (by omega)
  have hrun := runChunks_all_ok env chunks.length chunks 0 [] [] [] hall
  show (runChunks env chunks.length 0 chunks [] [] []).2.2 = _
  rw [hrun, List.range_eq_range']
  simp

def envJoin : Nat → ChunkEnv := fun i =>
  if i = 0 then ⟨FfmpegOutcome.wrote 1, UploadOutcome.ok "Hello"⟩
  else ⟨FfmpegOutcome.wrote 1, UploadOutcome.ok "world"⟩

def chunksJoin : List (ℚ × ℚ) := [(0, 300), (290, 310)]

/-- Witness for C9: two chunks transcribing to `Hello` and `world`
produce exactly `Hello\n\nworld`. -/
theorem transcribe_audio_joins_parts_witness :
    (∀ j < chunksJoin.length, chunkOk (envJoin j) = true) ∧
    (transcribe_audio envJoin chunksJoin []).2 =
      Except.ok (String.intercalate "\n\n"
        ((List.range chunksJoin.length).map (fun j => uploadText (envJoin j).upload))) ∧
    (transcribe_audio envJoin chunksJoin []).2 = Except.ok "Hello\n\nworld" :=
  ⟨by decide, transcribe_audio_joins_parts envJoin chunksJoin (by decide), by decide⟩

/-- Claim C6: if the first failing chunk is chunk `i` (0-based) of `N`,
the driver returns an error message naming chunk `i+1` of `N` that wraps
the underlying cause, and no transcript is returned. -/
theorem transcribe_audio_chunk_failure_message (env : Nat → ChunkEnv)
    (chunks : List (ℚ × ℚ)) (i : Nat)
    (hi : i < chunks.length)
    (hpre : ∀ j < i, chunkOk (env j) = true)
    (hfail : chunkOk (env i) = false) :
    ∃ u, (transcribe_audio env chunks []).2 =
      Except.error (chunkErrMsg (i + 1) chunks.length u) := by
  obtain ⟨u, fs2, temps2, heq⟩ :=
    runChunks_err env chunks.length i chunks 0 [] [] [] hi
      (fun j hj1 hj2 => hpre j (by omega)) (by rw [Nat.zero_add]; exact hfail)
  rw [Nat.zero_add] at heq
  refine ⟨u, ?_⟩
  show (runChunks env chunks.length 0 chunks [] [] []).2.2 = _
  rw [heq]

def envFail : Nat → ChunkEnv := fun i =>
  if i = 1 then ⟨FfmpegOutcome.wrote 1, UploadOutcome.err "upload failed"⟩
  else ⟨FfmpegOutcome.wrote 1, UploadOutcome.ok "text"⟩

def chunksFail : List (ℚ × ℚ) := [(0, 600), (590, 600), (1180, 51/2)]

/-- Witness for C6: in a 3-chunk run whose second chunk's upload throws,
the driver's error names chunk `2/3`. -/
theorem transcribe_audio_chunk_failure_message_witness :
    1 < chunksFail.length ∧
    (∀ j < 1, chunkOk (envFail j) = true) ∧
    chunkOk (envFail 1) = false ∧
    ∃ u, (transcribe_audio envFail chunksFail []).2 =
      Except.error (chunkErrMsg (1 + 1) chunksFail.length u) :=
  ⟨by decide, by decide, by decide,
    transcribe_audio_chunk_failure_message envFail chunksFail 1 (by decide) (by decide) (by decide)⟩

def envLeak : Nat → ChunkEnv := fun i =>
  if i = 0 then ⟨FfmpegOutcome.wrote 1, UploadOutcome.ok "part one"⟩
  else ⟨FfmpegOutcome.wrote 0, UploadOutcome.ok "unused"⟩

/-- Claim C1 (code bug): a 3-chunk run (the plan for a 1205s file) whose
second chunk's ffmpeg invocation exits 0 but writes an empty output
file.  The `RuntimeError` raised by the empty-file check is not one of
the exception types whose handlers delete the temp file, and the driver
appends to `temp_paths` only after a successful extraction, so the
`finally` sweep misses the file: after the error propagates, temp chunk
file `1` is still on disk. -/
theorem transcribe_audio_empty_output_leak :
    transcribe_audio envLeak [((0 : ℚ), 600), (590, 600), (1180, 51/2)] [] =
      ([1], Except.error "Failed to process audio chunk 2/3: Audio extraction produced empty file") := by
  decide

/-! ## Retention sweeper (`cleanup_old_files`, lines 65-98)

A directory entry is modelled by its kind (`is_file()` is the negation
of `isDir` in this two-kind model), its modification time (a timestamp
in seconds, `ℚ`), and whether its deletion (`unlink`/`rmtree`) raises.
The source computes `cutoff = (now - timedelta(hours=maxAge)).timestamp()`,
modelled as `now - maxAge * 3600`, and wraps the three directory loops
(`uploads` files, `chunks` directories, `audio` files, in that order) in
a single `try/except` that catches every exception and returns — so a
failing deletion abandons the rest of the whole sweep.  `sweepDir`
returns the surviving entries of one directory together with `false`
when a deletion raised partway. -/

structure FsEntry where
  isDir : Bool
  mtime : ℚ
  unlinkFails : Bool

structure SweepDirs where
  uploads : List FsEntry
  chunks : List FsEntry
  audio : List FsEntry

def sweepDir (cutoff : ℚ) (wantDir : Bool) : List FsEntry → List FsEntry × Bool
  | [] => ([], true)
  | e :: rest =>
    if e.isDir = wantDir ∧ e.mtime < cutoff then
      if e.unlinkFails then (e :: rest, false)
      else sweepDir cutoff wantDir rest
    else
      let p := sweepDir cutoff wantDir rest
      (e :: p.1, p.2)

def cleanup_old_files (now maxAge : ℚ) (st : SweepDirs) : SweepDirs :=
  if (sweepDir (now - maxAge * 3600) false st.uploads).2 = false then
    ⟨(sweepDir (now - maxAge * 3600) false st.uploads).1, st.chunks, st.audio⟩
  else if (sweepDir (now - maxAge * 3600) true st.chunks).2 = false then
    ⟨(sweepDir (now - maxAge * 3600) false st.uploads).1,
      (sweepDir (now - maxAge * 3600) true st.chunks).1, st.audio⟩
  else
    ⟨(sweepDir (now - maxAge * 3600) false st.uploads).1,
      (sweepDir (now - maxAge * 3600) true st.chunks).1,
      (sweepDir (now - maxAge * 3600) false st.audio).1⟩

/-- When no deletion in a directory fails, sweeping it keeps exactly the
entries that are not (matching kind and strictly older than the cutoff). -/
lemma sweepDir_no_fail (cutoff : ℚ) (wantDir : Bool) :
    ∀ l : List FsEntry, (∀ e ∈ l, e.unlinkFails = false) →
    sweepDir cutoff wantDir l =
      (l.filter (fun e => !decide (e.isDir = wantDir ∧ e.mtime < cutoff)), true) := by
  intro l
  induction l with
  | nil => intro _; simp [sweepDir]
  | cons e rest ih =>
    intro h
    have he : e.unlinkFails = false := h e (List.mem_cons_self e rest)
    have hrest := ih (fun x hx => h x (List.mem_cons_of_mem e hx))
    by_cases hc : e.isDir = wantDir ∧ e.mtime < cutoff
    · simp [sweepDir, hc, he, hrest]
    · rcases not_and_or.mp hc with h1 | h1 <;> simp [sweepDir, hc, hrest, h1]

/-- Claim C7 (amended): when every deletion succeeds, the sweep deletes
exactly the entries of each directory's target kind (plain files in
`uploads` and `audio`, subdirectories in `chunks`) whose modification
time is strictly older than `now - maxAgeHours`; entries of the other
kind and entries at or younger than the cutoff are never deleted. -/
theorem cleanup_old_files_characterization (now maxAge : ℚ) (st : SweepDirs)
    (hu : ∀ e ∈ st.uploads, e.unlinkFails = false)
    (hc : ∀ e ∈ st.chunks, e.unlinkFails = false)
    (ha : ∀ e ∈ st.audio, e.unlinkFails = false) :
    cleanup_old_files now maxAge st =
      ⟨st.uploads.filter (fun e => !decide (e.isDir = false ∧ e.mtime < now - maxAge * 3600)),
       st.chunks.filter (fun e => !decide (e.isDir = true ∧ e.mtime < now - maxAge * 3600)),
       st.audio.filter (fun e => !decide (e.isDir = false ∧ e.mtime < now - maxAge * 3600))⟩ := by
  unfold cleanup_old_files
  rw [sweepDir_no_fail _ _ _ hu, sweepDir_no_fail _ _ _ hc, sweepDir_no_fail _ _ _ ha]
  simp

def eDirOld : FsEntry := ⟨true, 0, false⟩

/-- Claim C7 counterexample: with `maxAgeHours = 24` at time 90000, a
subdirectory of `uploads` with mtime 0 is 25 hours old (strictly older
than the 3600 cutoff), yet it survives the sweep because the `uploads`
loop only deletes entries for which `is_file()` holds. -/
theorem cleanup_old_files_old_dir_in_uploads_kept :
    eDirOld.mtime < 90000 - 24 * 3600 ∧
    cleanup_old_files 90000 24 ⟨[eDirOld], [], []⟩ = ⟨[eDirOld], [], []⟩ := by
  constructor
  · norm_num [eDirOld]
  · norm_num [cleanup_old_files, sweepDir, eDirOld]

def eOldFile : FsEntry := ⟨false, 0, false⟩

def eYoungFile : FsEntry := ⟨false, 89000, false⟩

def stOK : SweepDirs := ⟨[eOldFile, eYoungFile], [eDirOld], []⟩

/-- Witness for C7's amended characterization: at time 90000 with a
24-hour window, the 25-hour-old file is deleted, the young file is kept,
and the old subdirectory in `chunks` is deleted. -/
theorem cleanup_old_files_characterization_witness :
    (∀ e ∈ stOK.uploads, e.unlinkFails = false) ∧
    (∀ e ∈ stOK.chunks, e.unlinkFails = false) ∧
    (∀ e ∈ stOK.audio, e.unlinkFails = false) ∧
    cleanup_old_files 90000 24 stOK =
      ⟨stOK.uploads.filter (fun e => !decide (e.isDir = false ∧ e.mtime < 90000 - 24 * 3600)),
       stOK.chunks.filter (fun e => !decide (e.isDir = true ∧ e.mtime < 90000 - 24 * 3600)),
       stOK.audio.filter (fun e => !decide (e.isDir = false ∧ e.mtime < 90000 - 24 * 3600))⟩ ∧
    cleanup_old_files 90000 24 stOK = ⟨[eYoungFile], [], []⟩ :=
  ⟨by simp [stOK, eOldFile, eYoungFile, eDirOld],
   by simp [stOK, eOldFile, eYoungFile, eDirOld],
   by simp [stOK],
   cleanup_old_files_characterization 90000 24 stOK
     (by simp [stOK, eOldFile, eYoungFile, eDirOld])
     (by simp [stOK, eOldFile, eYoungFile, eDirOld])
     (by simp [stOK]),
   by norm_num [cleanup_old_files, sweepDir, stOK, eOldFile, eYoungFile, eDirOld]⟩

/-- Shape of a directory sweep whose first deletion failure happens at
entry `e`: the entries before `e` are processed normally, and `e`
together with the whole rest of the directory is left untouched. -/
lemma sweepDir_fail_shape (cutoff : ℚ) (wantDir : Bool) :
    ∀ (pre : List FsEntry) (e : FsEntry) (post : List FsEntry),
    (∀ x ∈ pre, x.unlinkFails = false) →
    e.isDir = wantDir → e.mtime < cutoff → e.unlinkFails = true →
    sweepDir cutoff wantDir (pre ++ e :: post) =
      (pre.filter (fun x => !decide (x.isDir = wantDir ∧ x.mtime < cutoff)) ++ e :: post, false) := by
  intro pre
  induction pre with
  | nil =>
    intro e post _ he1 he2 he3
    simp [sweepDir, he1, he2, he3]
  | cons x pre ih =>
    intro e post h he1 he2 he3
    have hx : x.unlinkFails = false := h x (List.mem_cons_self x pre)
    have hpre := ih e post (fun y hy => h y (List.mem_cons_of_mem x hy)) he1 he2 he3
    by_cases hc : x.isDir = wantDir ∧ x.mtime < cutoff
    · simp [sweepDir, hc, hx, hpre]
    · rcases not_and_or.mp hc with h1 | h1 <;> simp [sweepDir, hc, hpre, h1]

/-- Claim C8 (amended): the sweep never raises (the single `try/except`
catches everything and the function always returns a state), but it does
not continue past an individual deletion failure, wherever it occurs:
if the first failure is in the `uploads` loop, `chunks` and `audio` are
left completely unprocessed; if it is in the `chunks` loop, `audio` is
left completely unprocessed; an `audio` failure ends the sweep with its
partial result; and within the failing directory the entries before the
failing one are processed normally while the failing entry and the whole
rest of that directory stay untouched. -/
theorem cleanup_old_files_failure_aborts_sweep (now maxAge : ℚ) (st : SweepDirs) :
    (∀ u, sweepDir (now - maxAge * 3600) false st.uploads = (u, false) →
      cleanup_old_files now maxAge st = ⟨u, st.chunks, st.audio⟩) ∧
    (∀ u cs, sweepDir (now - maxAge * 3600) false st.uploads = (u, true) →
      sweepDir (now - maxAge * 3600) true st.chunks = (cs, false) →
      cleanup_old_files now maxAge st = ⟨u, cs, st.audio⟩) ∧
    (∀ u cs a b, sweepDir (now - maxAge * 3600) false st.uploads = (u, true) →
      sweepDir (now - maxAge * 3600) true st.chunks = (cs, true) →
      sweepDir (now - maxAge * 3600) false st.audio = (a, b) →
      cleanup_old_files now maxAge st = ⟨u, cs, a⟩) ∧
    (∀ (wantDir : Bool) (pre : List FsEntry) (e : FsEntry) (post : List FsEntry),
      (∀ x ∈ pre, x.unlinkFails = false) →
      e.isDir = wantDir → e.mtime < now - maxAge * 3600 → e.unlinkFails = true →
      sweepDir (now - maxAge * 3600) wantDir (pre ++ e :: post) =
        (pre.filter (fun x => !decide (x.isDir = wantDir ∧ x.mtime < now - maxAge * 3600)) ++
          e :: post, false)) := by
  refine ⟨?_, ?_, ?_, ?_⟩
  · intro u h
    unfold cleanup_old_files
    rw [h]
    simp
  · intro u cs h1 h2
    unfold cleanup_old_files
    rw [h1, h2]
    simp
  · intro u cs a b h1 h2 h3
    unfold cleanup_old_files
    rw [h1, h2, h3]
    simp
  · intro wantDir pre e post hpre he1 he2 he3
    exact sweepDir_fail_shape (now - maxAge * 3600) wantDir pre e post hpre he1 he2 he3

def eFailDel : FsEntry := ⟨false, 0, true⟩

def eOkDel : FsEntry := ⟨false, 0, false⟩

def stFail : SweepDirs := ⟨[eFailDel, eOkDel], [eDirOld], []⟩

def eDirFailDel : FsEntry := ⟨true, 0, true⟩

def stFailChunks : SweepDirs := ⟨[], [eDirFailDel], [eOldFile]⟩

def stFailAudio : SweepDirs := ⟨[], [], [eFailDel]⟩

/-- Claim C8 counterexample: when deleting the first old file of
`uploads` raises, the sweep stops: the second old file of `uploads` and
the old subdirectory in `chunks` survive, although sweeping the same
state without the failing entry deletes both. -/
theorem cleanup_old_files_stops_after_failure :
    cleanup_old_files 90000 24 stFail = stFail ∧
    cleanup_old_files 90000 24 ⟨[eOkDel], [eDirOld], []⟩ = ⟨[], [], []⟩ := by
  constructor
  · norm_num [cleanup_old_files, sweepDir, stFail, eFailDel, eOkDel, eDirOld]
  · norm_num [cleanup_old_files, sweepDir, eOkDel, eDirOld]

/-- Witness for C8's amended abort behavior: a failing deletion in
`uploads` leaves `chunks` and `audio` unprocessed, a failing `rmtree` in
`chunks` leaves `audio` (with a deletable old file) unprocessed, a
failing deletion in `audio` leaves that entry in place, and a failure in
mid-directory leaves the failing entry and the rest of the directory
untouched while the prefix is processed. -/
theorem cleanup_old_files_failure_aborts_sweep_witness :
    sweepDir (90000 - 24 * 3600) false stFail.uploads = ([eFailDel, eOkDel], false) ∧
    cleanup_old_files 90000 24 stFail = ⟨[eFailDel, eOkDel], stFail.chunks, stFail.audio⟩ ∧
    sweepDir (90000 - 24 * 3600) true stFailChunks.chunks = ([eDirFailDel], false) ∧
    cleanup_old_files 90000 24 stFailChunks = ⟨[], [eDirFailDel], stFailChunks.audio⟩ ∧
    cleanup_old_files 90000 24 stFailAudio = ⟨[], [], [eFailDel]⟩ ∧
    sweepDir (90000 - 24 * 3600) false ([eOkDel] ++ eFailDel :: [eOkDel]) =
      ([eOkDel].filter (fun x => !decide (x.isDir = false ∧ x.mtime < 90000 - 24 * 3600)) ++
        eFailDel :: [eOkDel], false) :=
  ⟨by norm_num [sweepDir, stFail, eFailDel, eOkDel],
   (cleanup_old_files_failure_aborts_sweep 90000 24 stFail).1 [eFailDel, eOkDel]
     (by norm_num [sweepDir, stFail, eFailDel, eOkDel]),
   by norm_num [sweepDir, stFailChunks, eDirFailDel],
   (cleanup_old_files_failure_aborts_sweep 90000 24 stFailChunks).2.1 [] [eDirFailDel]
     (by norm_num [sweepDir, stFailChunks])
     (by norm_num [sweepDir, stFailChunks, eDirFailDel]),
   (cleanup_old_files_failure_aborts_sweep 90000 24 stFailAudio).2.2.1 [] [] [eFailDel] false
     (by norm_num [sweepDir, stFailAudio])
     (by norm_num [sweepDir, stFailAudio])
     (by norm_num [sweepDir, stFailAudio, eFailDel]),
   (cleanup_old_files_failure_aborts_sweep 90000 24 stFail).2.2.2 false [eOkDel] eFailDel [eOkDel]
     (by simp [eOkDel])
     (by norm_num [eFailDel])
     (by norm_num [eFailDel])
     (by norm_num [eFailDel])⟩
